import Mathlib

/-!
Verification development for the Lucky 7 / Hi-Low scraper (`src/scraper.py`).

The pure card-parsing layer (`card_from`, `parse_from_any`, `parse_from_text`,
`tokens_from_js_hints`, the regex patterns `PAT_SIMPLE`, `PAT_DOUBLE`,
`PAT_WORDY`, `PAT_CLASS`, `PAT_SYM`, `PAT_OFWORD`, `PAT_JSON_1`, `PAT_JSON_2`)
is translated directly.  Python regular expressions are embedded as hand-written
scanners over `List Char` that implement exactly the semantics each concrete
pattern needs: leftmost search, ordered alternation, lazy gaps for the literal
pattern text, ASCII case-insensitivity, and Python word boundaries
(approximated for ASCII word characters; every string the program feeds these
patterns is ASCII apart from the four suit glyphs, which are non-word in
Python as well).

The frame-traversal resolver (`try_parse_here`, `try_parse_shadow`,
`dfs_frames_for_card`) is embedded over an explicit frame tree.  Browser-side
collectors that cannot run in Lean (BeautifulSoup selection, in-page
JavaScript, the CDP network log) are represented by the raw token lists they
return, attached to each frame node; the Python post-processing of those lists
is translated.  The Selenium browsing context is threaded explicitly as a path
into the frame tree, with `switch_to.frame` failing on a detached frame or on
a handle from a context the driver is no longer in, and
`switch_to.parent_frame` popping one level (a no-op at the top).
-/

namespace Lucky7

/-! ## ASCII character helpers (Python `str.lower`/`str.upper`/`\w`/`\s`) -/

def lowerC (c : Char) : Char :=
  if 'A' ≤ c ∧ c ≤ 'Z' then Char.ofNat (c.toNat + 32) else c

def upperC (c : Char) : Char :=
  if 'a' ≤ c ∧ c ≤ 'z' then Char.ofNat (c.toNat - 32) else c

def isWordC (c : Char) : Bool :=
  ('a' ≤ c && c ≤ 'z') || ('A' ≤ c && c ≤ 'Z') || ('0' ≤ c && c ≤ '9') || c = '_'

def isSpaceC (c : Char) : Bool :=
  c = ' ' || c = '\t' || c = '\n' || c = '\r' || c = '\x0b' || c = '\x0c'

def lowerStr (s : String) : String := String.mk (s.data.map lowerC)

def upperStr (s : String) : String := String.mk (s.data.map upperC)

/-- Python `pat in hay` substring test on char lists. -/
def containsSub (pat : List Char) : List Char → Bool
  | [] => pat.isEmpty
  | c :: t => pat.isPrefixOf (c :: t) || containsSub pat t

/-! ## Card tables (scraper.py lines 78-84) -/

structure Card where
  rank : Nat
  suit_key : String
deriving DecidableEq, Repr

def RANK_MAP : String → Option Nat
  | "A" => some 1
  | "2" => some 2
  | "3" => some 3
  | "4" => some 4
  | "5" => some 5
  | "6" => some 6
  | "7" => some 7
  | "8" => some 8
  | "9" => some 9
  | "10" => some 10
  | "J" => some 11
  | "Q" => some 12
  | "K" => some 13
  | _ => none

def SUIT_WORD : String → Option String
  | "SPADE" => some "S"
  | "HEART" => some "H"
  | "DIAMOND" => some "D"
  | "CLUB" => some "C"
  | _ => none

def SUIT_SYMBOL : String → Option String
  | "♠" => some "S"
  | "♥" => some "H"
  | "♦" => some "D"
  | "♣" => some "C"
  | _ => none

def CLOSED_HINTS : List String :=
  ["closed", "back", "backside", "card-back", "1_card_20_20"]

def color_of (suit_key : String) : String :=
  if suit_key = "H" ∨ suit_key = "D" then "red" else "black"

def result_of (rank : Nat) : String :=
  if rank < 7 then "below7" else if rank = 7 then "seven" else "above7"

/-- scraper.py `card_from` (lines 96-104). -/
def card_from (rank_txt suit_txt : String) : Option Card :=
  let r := upperStr rank_txt
  let s := upperStr suit_txt
  match RANK_MAP r with
  | none => none
  | some rk =>
    let suit? : Option String :=
      if s = "S" ∨ s = "H" ∨ s = "D" ∨ s = "C" then some s
      else match SUIT_WORD s with
        | some w => some w
        | none => SUIT_SYMBOL suit_txt
    suit?.map (fun sk => ⟨rk, sk⟩)

/-! ## Regex scanners

Each Python pattern is implemented as a matcher at one start position plus a
leftmost-search wrapper. -/

/-- Case-insensitive literal; returns (matched original characters, rest). -/
def litCI : List Char → List Char → Option (List Char × List Char)
  | [], cs => some ([], cs)
  | _ :: _, [] => none
  | p :: ps, c :: cs =>
    if lowerC c = lowerC p then
      (litCI ps cs).map (fun m => (c :: m.1, m.2))
    else none

/-- Alternation `(A|K|Q|J|10|[2-9])`; branches are first-character disjoint. -/
def rankTok : List Char → Option (List Char × List Char)
  | [] => none
  | c :: rest =>
    if lowerC c = 'a' ∨ lowerC c = 'k' ∨ lowerC c = 'q' ∨ lowerC c = 'j' then
      some ([c], rest)
    else if c = '1' then
      match rest with
      | c2 :: r2 => if c2 = '0' then some ([c, c2], r2) else none
      | [] => none
    else if '2' ≤ c ∧ c ≤ '9' then some ([c], rest)
    else none

/-- Character class `[SHDC]` / `[shdc]` under `re.I`. -/
def suitLet : List Char → Option (Char × List Char)
  | [] => none
  | c :: rest =>
    if lowerC c = 's' ∨ lowerC c = 'h' ∨ lowerC c = 'd' ∨ lowerC c = 'c' then
      some (c, rest)
    else none

/-- Alternation `(spade|heart|diamond|club)` under `re.I`. -/
def suitWordTok (cs : List Char) : Option (List Char × List Char) :=
  litCI "spade".data cs <|> litCI "heart".data cs <|>
  litCI "diamond".data cs <|> litCI "club".data cs

def isGlyph (c : Char) : Bool := c = '♠' || c = '♥' || c = '♦' || c = '♣'

/-- Greedy `\s*`. -/
def eatWs : List Char → List Char
  | [] => []
  | c :: t => if isSpaceC c then eatWs t else c :: t

/-- `\s+`: at least one whitespace character, then greedy. -/
def eatWs1 : List Char → Option (List Char)
  | [] => none
  | c :: t => if isSpaceC c then some (eatWs t) else none

def wordHead : List Char → Bool
  | [] => false
  | c :: _ => isWordC c

def noWordHead (cs : List Char) : Bool := !wordHead cs

/-- Python `\b` at a position given the previous character (none = string
start) and the remaining characters. -/
def bdry (prev : Option Char) (cs : List Char) : Bool :=
  (match prev with | some c => isWordC c | none => false) != wordHead cs

/-- `\.(?:png|jpe?g|webp|webm)\b` after the dot: one extension alternative
followed by a word boundary (last extension char is a word char, so the next
char must not be). -/
def extOk (cs : List Char) : Option Unit :=
  let tryExt : List Char → Option Unit := fun pat =>
    (litCI pat cs).bind (fun m => if noWordHead m.2 then some () else none)
  tryExt "png".data <|> tryExt "jpeg".data <|> tryExt "jpg".data <|>
  tryExt "webp".data <|> tryExt "webm".data

/-- Leftmost-search driver: try the matcher at every start position. -/
def searchPos (f : List Char → Option α) : List Char → Option α
  | [] => f []
  | c :: t => f (c :: t) <|> searchPos f t

/-- `PAT_SIMPLE = /(A|K|Q|J|10|[2-9])([SHDC])\.(?:png|jpe?g|webp|webm)\b` at one
position; returns (rank capture, suit capture). -/
def simpleAt : List Char → Option (List Char × List Char)
  | '/' :: r1 =>
    (rankTok r1).bind fun rk =>
    (suitLet rk.2).bind fun sc =>
    match sc.2 with
    | '.' :: r4 => (extOk r4).map (fun _ => (rk.1, [sc.1]))
    | _ => none
  | _ => none

def searchSimple (cs : List Char) : Option (List Char × List Char) :=
  searchPos simpleAt cs

/-- `PAT_DOUBLE = /(A|K|Q|J|10|[2-9])(SS|HH|DD|CC)\.(?:png|jpe?g|webp|webm)\b`. -/
def doubleAt : List Char → Option (List Char × List Char)
  | '/' :: r1 =>
    (rankTok r1).bind fun rk =>
    match rk.2 with
    | c1 :: c2 :: r3 =>
      if lowerC c1 = lowerC c2 ∧
         (lowerC c1 = 's' ∨ lowerC c1 = 'h' ∨ lowerC c1 = 'd' ∨ lowerC c1 = 'c') then
        match r3 with
        | '.' :: r4 => (extOk r4).map (fun _ => (rk.1, [c1, c2]))
        | _ => none
      else none
    | _ => none
  | _ => none

def searchDouble (cs : List Char) : Option (List Char × List Char) :=
  searchPos doubleAt cs

/-- Alternation `(ace|king|queen|jack|10|[2-9])` of `PAT_WORDY`. -/
def wordRank (cs : List Char) : Option (List Char × List Char) :=
  litCI "ace".data cs <|> litCI "king".data cs <|>
  litCI "queen".data cs <|> litCI "jack".data cs <|>
  (match cs with
   | '1' :: '0' :: r => some (['1', '0'], r)
   | _ => none) <|>
  (match cs with
   | c :: r => if '2' ≤ c ∧ c ≤ '9' then some ([c], r) else none
   | [] => none)

/-- Lazy gap `.*?` (no newline) up to the suit word of `PAT_WORDY`; the
trailing `s?` affects neither success nor the capture. -/
def wordyGap : List Char → Option (List Char)
  | [] => none
  | c :: t =>
    match suitWordTok (c :: t) with
    | some w => some w.1
    | none => if c = '\n' then none else wordyGap t

/-- `PAT_WORDY = (ace|king|queen|jack|10|[2-9]).*?(spade|heart|diamond|club)s?`. -/
def wordyAt (cs : List Char) : Option (List Char × List Char) :=
  (wordRank cs).bind fun rk => (wordyGap rk.2).map fun w => (rk.1, w)

def searchWordy (cs : List Char) : Option (List Char × List Char) :=
  searchPos wordyAt cs

/-- Greedy `[-_ ]?`; its characters never overlap the following token, so no
backtracking is needed. -/
def optDash : List Char → List Char
  | [] => []
  | c :: t => if c = '-' ∨ c = '_' ∨ c = ' ' then t else c :: t

/-- Lazy gap of `PAT_CLASS` up to `suit[-_ ]?([shdc])`. -/
def classSuitGap : List Char → Option Char
  | [] => none
  | c :: t =>
    (match litCI "suit".data (c :: t) with
     | some m => (suitLet (optDash m.2)).map (fun sc => sc.1)
     | none => none) <|>
    (if c = '\n' then none else classSuitGap t)

/-- `PAT_CLASS = rank[-_ ]?(A|K|Q|J|10|[2-9]).*?suit[-_ ]?([shdc])`. -/
def classAt (cs : List Char) : Option (List Char × List Char) :=
  (litCI "rank".data cs).bind fun m =>
  (rankTok (optDash m.2)).bind fun rk =>
  (classSuitGap rk.2).map fun sc => (rk.1, [sc])

def searchClass (cs : List Char) : Option (List Char × List Char) :=
  searchPos classAt cs

/-- `PAT_SYM = \b(A|K|Q|J|10|[2-9])\s*([♠♥♦♣])\b` at one position.  The glyph
is a non-word character, so the trailing `\b` demands a word character after
it, exactly as in Python. -/
def symAt (prev : Option Char) (cs : List Char) : Option (List Char × Char) :=
  if bdry prev cs then
    (rankTok cs).bind fun rk =>
    match eatWs rk.2 with
    | g :: r3 => if isGlyph g ∧ wordHead r3 then some (rk.1, g) else none
    | [] => none
  else none

def searchSym (prev : Option Char) : List Char → Option (List Char × Char)
  | [] => none
  | c :: t => symAt prev (c :: t) <|> searchSym (some c) t

/-- `(SPADES?|HEARTS?|DIAMONDS?|CLUBS?)\b` under `re.I`: greedy optional `s`,
capture includes it, then a word boundary. -/
def ofwordSuit (cs : List Char) : Option (List Char) :=
  (suitWordTok cs).bind fun w =>
    (match w.2 with
     | c :: r2 => if lowerC c = 's' ∧ !wordHead r2 then some (w.1 ++ [c]) else none
     | [] => none) <|>
    (if !wordHead w.2 then some w.1 else none)

/-- `PAT_OFWORD = \b(A|K|Q|J|10|[2-9])\s*(?:OF\s+)?(SPADES?|HEARTS?|DIAMONDS?|CLUBS?)\b`. -/
def ofwordAt (prev : Option Char) (cs : List Char) : Option (List Char × List Char) :=
  if bdry prev cs then
    (rankTok cs).bind fun rk =>
    let r2 := eatWs rk.2
    (((litCI "of".data r2).bind fun m =>
        (eatWs1 m.2).bind fun r4 => ofwordSuit r4) <|>
      ofwordSuit r2).map fun w => (rk.1, w)
  else none

def searchOfword (prev : Option Char) : List Char → Option (List Char × List Char)
  | [] => none
  | c :: t => ofwordAt prev (c :: t) <|> searchOfword (some c) t

/-- Maximal run of digits (`\d+` greedy; the following token is never a
digit, so no backtracking is needed). -/
def digitsTake : List Char → List Char × List Char
  | [] => ([], [])
  | c :: t =>
    if c.isDigit then
      let d := digitsTake t
      (c :: d.1, d.2)
    else ([], c :: t)

def digits1 (cs : List Char) : Option (List Char × List Char) :=
  match digitsTake cs with
  | ([], _) => none
  | (d, r) => some (d, r)

def natOfDigits (ds : List Char) : Nat :=
  ds.foldl (fun a c => a * 10 + (c.toNat - '0'.toNat)) 0

/-- `PAT_JSON_1 = "rank"\s*:\s*(\d+)\s*,\s*"suit"\s*:\s*"(SPADE|HEART|DIAMOND|CLUB)"`. -/
def json1At (cs : List Char) : Option (List Char × List Char) :=
  (litCI "\"rank\"".data cs).bind fun m1 =>
  match eatWs m1.2 with
  | ':' :: r3 =>
    (digits1 (eatWs r3)).bind fun ds =>
    match eatWs ds.2 with
    | ',' :: r7 =>
      (litCI "\"suit\"".data (eatWs r7)).bind fun m2 =>
      match eatWs m2.2 with
      | ':' :: r11 =>
        (match eatWs r11 with
         | '"' :: r13 =>
           (suitWordTok r13).bind fun w =>
           match w.2 with
           | '"' :: _ => some (ds.1, w.1)
           | _ => none
         | _ => none)
      | _ => none
    | _ => none
  | _ => none

def searchJson1 (cs : List Char) : Option (List Char × List Char) :=
  searchPos json1At cs

/-- `PAT_JSON_2 = "card"\s*:\s*"(A|K|Q|J|10|[2-9])\s*([SHDC])"`. -/
def json2At (cs : List Char) : Option (List Char × List Char) :=
  (litCI "\"card\"".data cs).bind fun m1 =>
  match eatWs m1.2 with
  | ':' :: r3 =>
    (match eatWs r3 with
     | '"' :: r5 =>
       (rankTok r5).bind fun rk =>
       (suitLet (eatWs rk.2)).bind fun sc =>
       match sc.2 with
       | '"' :: _ => some (rk.1, [sc.1])
       | _ => none
     | _ => none)
  | _ => none

def searchJson2 (cs : List Char) : Option (List Char × List Char) :=
  searchPos json2At cs

/-! ## Parser entry points (scraper.py lines 106-138) -/

/-- Python `any(h in low for h in CLOSED_HINTS)` with `low = s.lower()`. -/
def hasClosedHint (s : String) : Bool :=
  CLOSED_HINTS.any (fun h => containsSub h.data (lowerStr s).data)

/-- scraper.py `parse_from_any` (lines 106-118).  Note that once a pattern
matches, the result of `card_from` is returned directly, even when it is
`none`: later patterns are not tried (mirrors `if m: return card_from(...)`). -/
def parse_from_any (s : String) : Option Card :=
  if s = "" then none
  else if hasClosedHint s then none
  else match searchSimple s.data with
  | some m => card_from (String.mk m.1) (String.mk m.2)
  | none => match searchDouble s.data with
    | some m => card_from (String.mk m.1) (String.mk (m.2.take 1))
    | none => match searchWordy s.data with
      | some m => card_from (String.mk m.1) (String.mk m.2)
      | none => match searchClass s.data with
        | some m => card_from (String.mk m.1) (String.mk m.2)
        | none => none

/-- Python `"SPADES".rstrip("S")`: drop every trailing `S`. -/
def dropTrailingS (l : List Char) : List Char :=
  (l.reverse.dropWhile (fun c => c = 'S')).reverse

/-- scraper.py `parse_from_text` (lines 120-138).  `PAT_SYM` and `PAT_OFWORD`
fall through to the next pattern when `card_from` rejects the captures;
`PAT_JSON_1` falls through when the rank is out of range; `PAT_JSON_2` returns
the `card_from` result directly.  There is no closed-hint rejection here. -/
def parse_from_text (html : String) : Option Card :=
  let cs := html.data
  match (searchSym none cs).bind
      (fun m => card_from (String.mk m.1) (String.mk [m.2])) with
  | some c => some c
  | none =>
    match (searchOfword none cs).bind (fun m =>
        card_from (String.mk (m.1.map upperC))
          (String.mk (dropTrailingS (m.2.map upperC)))) with
    | some c => some c
    | none =>
      let j2 : Option Card :=
        match searchJson2 cs with
        | some m => card_from (String.mk m.1) (String.mk m.2)
        | none => none
      match searchJson1 cs with
      | some m =>
        let n := natOfDigits m.1
        let suit_word := String.mk (m.2.map upperC)
        if 1 ≤ n ∧ n ≤ 13 then
          some ⟨n, (SUIT_WORD suit_word).getD (String.mk (suit_word.data.take 1))⟩
        else j2
      | none => j2

/-! ## JS-hint token post-processing (scraper.py lines 255-272, 565-574) -/

/-- Python `str.strip()` (ASCII whitespace). -/
def stripStr (s : String) : String :=
  String.mk (((s.data.dropWhile isSpaceC).reverse.dropWhile isSpaceC).reverse)

/-- Python `vv.split()[0]` for a stripped, non-empty `vv`. -/
def firstWordOf (s : String) : String :=
  String.mk (s.data.takeWhile (fun c => !isSpaceC c))

/-- Suit-letter scan of the hint pattern
`\b(A|K|Q|J|10|[2-9])\b.*?\b([SHDC]|SPADE|HEART|DIAMOND|CLUB)\b`, returning
`group(2).upper()[0]`.  The single-letter branch is tried before the word
branch, as in the Python alternation. -/
def hint1SuitScan (prev : Option Char) : List Char → Option Char
  | [] => none
  | c :: t =>
    (if bdry prev (c :: t) then
      (match suitLet (c :: t) with
       | some sc => if !wordHead sc.2 then some (upperC sc.1) else none
       | none => none) <|>
      (match suitWordTok (c :: t) with
       | some w => if !wordHead w.2 then some (upperC (w.1.headD 'X')) else none
       | none => none)
     else none) <|>
    (if c = '\n' then none else hint1SuitScan (some c) t)

/-- The hint pattern above at one start position, yielding the synthesized
token `"/<RANK><LETTER>.png"`. -/
def hint1At (prev : Option Char) (cs : List Char) : Option String :=
  if bdry prev cs then
    (rankTok cs).bind fun rk =>
      if noWordHead rk.2 then
        (hint1SuitScan (some (rk.1.getLastD 'A')) rk.2).map fun letter =>
          "/" ++ String.mk (rk.1.map upperC) ++ String.singleton letter ++ ".png"
      else none
  else none

def hint1Search (prev : Option Char) : List Char → Option String
  | [] => none
  | c :: t => hint1At prev (c :: t) <|> hint1Search (some c) t

/-- `"/%s%s.png" % (m.group(1).upper(), m.group(2))` for a `PAT_SYM`-style
match. -/
def symToken (m : List Char × Char) : String :=
  "/" ++ String.mk (m.1.map upperC) ++ String.singleton m.2 ++ ".png"

/-- scraper.py `tokens_from_js_hints` (lines 255-272). -/
def tokens_from_js_hints (hints : List (String × String)) : List String :=
  let toks := hints.flatMap (fun kv =>
    let vv := stripStr kv.2
    if vv = "" then []
    else if kv.1.startsWith "img." || kv.1.startsWith "css.bg" then [firstWordOf vv]
    else
      (match hint1Search none vv.data with | some tok => [tok] | none => []) ++
      (match searchSym none vv.data with | some m => [symToken m] | none => []))
  (toks.foldl (fun acc t =>
    if hasClosedHint t then acc
    else if acc.contains t then acc
    else acc ++ [t]) []).take 800

/-- Hint expansion inside `try_parse_shadow` (scraper.py lines 565-571): each
token is kept and, when the hint patterns match, synthesized URL tokens are
appended after it. -/
def shadow_hints (toks : List String) : List String :=
  toks.flatMap (fun t =>
    [t] ++
    (match hint1Search none t.data with | some tok => [tok] | none => []) ++
    (match searchSym none t.data with | some m => [symToken m] | none => []))

/-! ## Frame tree and browsing context

A `FrameNode` carries the raw evidence each browser-side collector returns in
that frame context (the BeautifulSoup URL extraction, the in-page JS hint
collection, the page source, the shadow-DOM collection), plus failure flags:
`hereThrows`/`shadowThrows` model a WebDriver exception raised while
collecting in this context, `enumThrows` a failure of
`find_elements(By.TAG_NAME, "iframe")`, and `detached` a frame whose handle is
stale by the time `switch_to.frame` is called on it.  The browsing context is
the path of child indices from the page root; `switch_to.parent_frame` pops
one index (no-op at the top), and `switch_to.frame` fails on a detached child
or on a handle enumerated in a context the driver has since left. -/

structure FrameInfo where
  domUrls : List String
  jsHints : List (String × String)
  pageHtml : String
  shadowUrls : List String
  shadowToks : List String
  hereThrows : Bool
  shadowThrows : Bool
  enumThrows : Bool
  detached : Bool

inductive FrameNode where
  | mk (info : FrameInfo) (children : List FrameNode)

def FrameNode.info : FrameNode → FrameInfo
  | .mk i _ => i

def FrameNode.children : FrameNode → List FrameNode
  | .mk _ c => c

@[simp] theorem FrameNode.info_mk (i : FrameInfo) (c : List FrameNode) :
    (FrameNode.mk i c).info = i := rfl

@[simp] theorem FrameNode.children_mk (i : FrameInfo) (c : List FrameNode) :
    (FrameNode.mk i c).children = c := rfl

def nodeAt : FrameNode → List Nat → Option FrameNode
  | n, [] => some n
  | n, i :: p =>
    match n.children[i]? with
    | some c => nodeAt c p
    | none => none

/-- scraper.py `try_parse_here` (lines 545-558), on the evidence of one frame
context: DOM URLs, then JS-computed hint tokens, then free page text. -/
def try_parse_here (n : FrameNode) : Except Unit (Option (Card × String)) :=
  if n.info.hereThrows then .error ()
  else .ok (
    match n.info.domUrls.findSome? parse_from_any with
    | some p => some (p, "via=dom-url")
    | none =>
      match (tokens_from_js_hints n.info.jsHints).findSome? parse_from_any with
      | some p => some (p, "via=dom-js")
      | none =>
        match parse_from_text n.info.pageHtml with
        | some c => some (c, "via=dom-text")
        | none => none)

/-- scraper.py `try_parse_shadow` (lines 560-575). -/
def try_parse_shadow (n : FrameNode) : Except Unit (Option (Card × String)) :=
  if n.info.shadowThrows then .error ()
  else .ok (
    match n.info.shadowUrls.findSome? parse_from_any with
    | some p => some (p, "via=shadow-url")
    | none =>
      match (shadow_hints n.info.shadowToks).findSome? parse_from_any with
      | some p => some (p, "via=shadow-text")
      | none => none)

def tryHereAt (page : FrameNode) (path : List Nat) : Except Unit (Option (Card × String)) :=
  match nodeAt page path with
  | none => .error ()
  | some n => try_parse_here n

def tryShadowAt (page : FrameNode) (path : List Nat) : Except Unit (Option (Card × String)) :=
  match nodeAt page path with
  | none => .error ()
  | some n => try_parse_shadow n

/-- `driver.find_elements(By.TAG_NAME, "iframe")`: the number of child frames
of the current context. -/
def enumFramesAt (page : FrameNode) (path : List Nat) : Except Unit Nat :=
  match nodeAt page path with
  | none => .error ()
  | some n => if n.info.enumThrows then .error () else .ok n.children.length

/-- `driver.switch_to.frame(fr)` for the `i`-th handle enumerated at
`enumPath`, with the driver currently at `cur`. -/
def enterFrame (page : FrameNode) (enumPath : List Nat) (i : Nat) (cur : List Nat) :
    Except Unit (List Nat) :=
  if cur ≠ enumPath then .error ()
  else match (nodeAt page enumPath).bind (fun n => n.children[i]?) with
    | none => .error ()
    | some c => if c.info.detached then .error () else .ok (enumPath ++ [i])

inductive DRes where
  | found (c : Card) (how : String)
  | nofind
  | raised
deriving DecidableEq, Repr

/-- The `for fr in driver.find_elements(...)` loop body of
`dfs_frames_for_card` (scraper.py lines 583-591): every exception inside the
`try` is caught, and the handler attempts one `switch_to.parent_frame()`. -/
def loopF (rec : List Nat → DRes × List Nat) (page : FrameNode) (enumPath : List Nat) :
    List Nat → List Nat → DRes × List Nat
  | [], cur => (.nofind, cur)
  | i :: rest, cur =>
    match enterFrame page enumPath i cur with
    | .error _ => loopF rec page enumPath rest cur.dropLast
    | .ok cur1 =>
      match rec cur1 with
      | (.found c h, p) => (.found c h, p.dropLast)
      | (.nofind, p) => loopF rec page enumPath rest p.dropLast
      | (.raised, p) => loopF rec page enumPath rest p.dropLast

/-- Lines 578-581 of `dfs_frames_for_card`: probe the current context with
`try_parse_here`, then `try_parse_shadow`; an exception in either propagates. -/
def localProbe (page : FrameNode) (path : List Nat) : Except Unit (Option (Card × String)) :=
  match tryHereAt page path with
  | .error _ => .error ()
  | .ok (some ph) => .ok (some ph)
  | .ok none => tryShadowAt page path

/-- scraper.py `dfs_frames_for_card` (lines 577-592) with the remaining depth
budget `fuel = max_depth - depth` as the recursion parameter: probe the
current context, stop (`nofind`) when the depth bound is reached, otherwise
enumerate child frames and run the absorbing loop.  Collector exceptions at
the current context and enumeration failures are not caught here (they
propagate to the caller as `raised`); everything inside the child loop is
absorbed by `loopF`. -/
def dfsF (page : FrameNode) : Nat → List Nat → DRes × List Nat
  | 0, path =>
    match localProbe page path with
    | .error _ => (.raised, path)
    | .ok (some ph) => (.found ph.1 ph.2, path)
    | .ok none => (.nofind, path)
  | f + 1, path =>
    match localProbe page path with
    | .error _ => (.raised, path)
    | .ok (some ph) => (.found ph.1 ph.2, path)
    | .ok none =>
      match enumFramesAt page path with
      | .error _ => (.raised, path)
      | .ok n => loopF (fun p => dfsF page f p) page path (List.range n) path

/-- Source-shaped wrapper: `dfs_frames_for_card(driver, max_depth, depth)`
descends exactly while `depth < max_depth`. -/
def dfs_frames_for_card (page : FrameNode) (max_depth depth : Nat) (path : List Nat) :
    DRes × List Nat :=
  dfsF page (max_depth - depth) path

/-! ## Network body scanning (scraper.py lines 325-359) -/

structure NetEntry where
  mime : String
  bodyFetch : Option String

/-- Close of `PAT_ROUNDID`: `"?(,|\})`, greedy optional quote. -/
def ridClose (cs : List Char) : Option Unit :=
  (match cs with
   | '"' :: r => (match r with | ',' :: _ => some () | '}' :: _ => some () | _ => none)
   | _ => none) <|>
  (match cs with | ',' :: _ => some () | '}' :: _ => some () | _ => none)

/-- Lazy group `(.*?)` of `PAT_ROUNDID` (shortest content, no newline). -/
def ridGap : List Char → List Char → Option (List Char)
  | acc, cs =>
    match ridClose cs with
    | some _ => some acc.reverse
    | none =>
      match cs with
      | [] => none
      | c :: t => if c = '\n' then none else ridGap (c :: acc) t

/-- `PAT_ROUNDID = "roundId"\s*:\s*"?(.*?)"?(,|\})` at one start position. -/
def roundIdAt (cs : List Char) : Option (List Char) :=
  (litCI "\"roundId\"".data cs).bind fun m =>
  match eatWs m.2 with
  | ':' :: r3 =>
    let r5 := eatWs r3
    (match r5 with
     | '"' :: t => ridGap [] t
     | _ => none) <|> ridGap [] r5
  | _ => none

def searchRoundId (cs : List Char) : Option (List Char) :=
  searchPos roundIdAt cs

/-- `"(?:open|result|winning|win)Card"\s*:\s*"([AKQJ]|10|[2-9])\s*([SHDC])"`
(scraper.py line 351). -/
def openCardAt (cs : List Char) : Option (List Char × List Char) :=
  match cs with
  | '"' :: r0 =>
    let cont : List Char → Option (List Char × List Char) := fun r =>
      match eatWs r with
      | ':' :: r2 =>
        (match eatWs r2 with
         | '"' :: r4 =>
           (rankTok r4).bind fun rk =>
           (suitLet (eatWs rk.2)).bind fun sc =>
           (match sc.2 with
            | '"' :: _ => some (rk.1, [sc.1])
            | _ => none)
         | _ => none)
      | _ => none
    ((litCI "open".data r0).bind fun m => (litCI "card\"".data m.2).bind fun m2 => cont m2.2) <|>
    ((litCI "result".data r0).bind fun m => (litCI "card\"".data m.2).bind fun m2 => cont m2.2) <|>
    ((litCI "winning".data r0).bind fun m => (litCI "card\"".data m.2).bind fun m2 => cont m2.2) <|>
    ((litCI "win".data r0).bind fun m => (litCI "card\"".data m.2).bind fun m2 => cont m2.2)
  | _ => none

def searchOpenCard (cs : List Char) : Option (List Char × List Char) :=
  searchPos openCardAt cs

def mimeOk (m : String) : Bool :=
  let ml := (lowerStr m).data
  containsSub "json".data ml || containsSub "javascript".data ml ||
  containsSub "text/plain".data ml

/-- scraper.py `collect_network_json_card` (lines 325-359) over the fresh
(not-yet-seen) response entries of this call; a `bodyFetch` of `none` models
`Network.getResponseBody` raising `WebDriverException` (that entry is
skipped). -/
def collectNetGo : List NetEntry → Option String → Option Card × Option String
  | [], rid => (none, rid)
  | e :: rest, rid =>
    if !mimeOk e.mime then collectNetGo rest rid
    else match e.bodyFetch with
    | none => collectNetGo rest rid
    | some body =>
      if body = "" then collectNetGo rest rid
      else
        let bs := body.data
        let card1 : Option Card :=
          match searchJson1 bs with
          | some m =>
            let n := natOfDigits m.1
            if 1 ≤ n ∧ n ≤ 13 then
              some ⟨n, (SUIT_WORD (String.mk (m.2.map upperC))).getD
                        (String.mk ((m.2.take 1).map upperC))⟩
            else none
          | none => none
        let card2 : Option Card :=
          match card1 with
          | some c => some c
          | none => (searchJson2 bs).bind fun m =>
              card_from (String.mk m.1) (String.mk m.2)
        let rid1 : Option String :=
          match searchRoundId bs with
          | some g => some (stripStr (String.mk g))
          | none => rid
        let card3 : Option Card :=
          match card2 with
          | some c => some c
          | none => (searchOpenCard bs).bind fun m =>
              card_from (String.mk m.1) (String.mk m.2)
        match card3 with
        | some c => (some c, rid1)
        | none => collectNetGo rest rid1

def collect_network_json_card (entries : List NetEntry) : Option Card × Option String :=
  collectNetGo entries none

/-! ## One resolution pass of the main loop (scraper.py lines 815-823) -/

/-- One pass of the card-resolution step in `main`: the frame DFS (with
`max_depth=5` from the starting context) first; network JSON bodies are
consulted only when the whole frame tree yields nothing.  A `raised` DFS
result propagates (nothing in `main` catches it).  The returned round id
reflects `if pr: rid = pr` (Python truthiness: an empty string is discarded). -/
def resolution_pass (page : FrameNode) (startPath : List Nat) (entries : List NetEntry) :
    Except Unit (Option (Card × String) × Option String) :=
  match dfs_frames_for_card page 5 0 startPath with
  | (.raised, _) => .error ()
  | (.found c h, _) => .ok (some (c, h), none)
  | (.nofind, _) =>
    match collect_network_json_card entries with
    | (pj, pr) =>
      let rid := match pr with
        | some r => if r = "" then none else some r
        | none => none
      match pj with
      | some c => .ok (some (c, "via=json"), rid)
      | none => .ok (none, rid)

/-- Modelled from the spec for comparison in claim C2: a resolver that
consults the evidence sources in the priority order the spec states
(current-frame DOM URLs → JS-computed hints → shadow DOM → network response
bodies → free visible text), short-circuits on the first successful parse,
and recurses into child frames only if the current context yields nothing. -/
def resolveSpecOrderC2 (entries : List NetEntry) : Nat → FrameNode → Option (Card × String)
  | fuel, n =>
    match n.info.domUrls.findSome? parse_from_any with
    | some p => some (p, "via=dom-url")
    | none =>
      match (tokens_from_js_hints n.info.jsHints).findSome? parse_from_any with
      | some p => some (p, "via=dom-js")
      | none =>
        match n.info.shadowUrls.findSome? parse_from_any with
        | some p => some (p, "via=shadow-url")
        | none =>
          match (shadow_hints n.info.shadowToks).findSome? parse_from_any with
          | some p => some (p, "via=shadow-text")
          | none =>
            match (collect_network_json_card entries).1 with
            | some c => some (c, "via=json")
            | none =>
              match parse_from_text n.info.pageHtml with
              | some c => some (c, "via=dom-text")
              | none =>
                match fuel with
                | 0 => none
                | f + 1 => n.children.findSome? (fun ch => resolveSpecOrderC2 entries f ch)

/-! ## Dedup / emit (scraper.py lines 834-852) -/

/-- Python f-string rendering of the optional round id (`None` prints as the
string "None"). -/
def pyOptStr : Option String → String
  | none => "None"
  | some r => r

/-- The dedup key `sig = f"{rid}|{rank}|{suit}"`. -/
def sigOf (rid : Option String) (rank : Nat) (suit : String) : String :=
  pyOptStr rid ++ "|" ++ toString rank ++ "|" ++ suit

/-- The save-section state machine of `main`: starting from `last_sig`
(initially Python `None`), append a row exactly when the freshly-built key
differs from the last emitted one, and update `last_sig` only on emission.
Returns the keys of the emitted rows, in order. -/
def dedup_run : Option String → List (Option String × Nat × String) → List String
  | _, [] => []
  | last, k :: rest =>
    if some (sigOf k.1 k.2.1 k.2.2) ≠ last then
      sigOf k.1 k.2.1 k.2.2 :: dedup_run (some (sigOf k.1 k.2.1 k.2.2)) rest
    else dedup_run last rest

/-! ## Next-round gate / escalation (scraper.py lines 854-900) -/

inductive GAct where
  | poke
  | join
  | refresh
  | reopen
deriving DecidableEq, Repr

structure GateSt where
  gate_start : Nat
  joined : Bool
  stuck : Nat
  table_idx : Nat
deriving DecidableEq, Repr

def MAX_TABLES : Nat := 10

/-- One stagnant iteration of the next-round gate loop (no JSON card, no new
network image, unchanged shadow signature), at absolute time `now` (seconds):
`poke_next_like` fires when `waited in (4, 8, 12, 16)`; `deep_join_nudge`
fires once when `waited >= 8` (`joinOk` tells whether it clicked something);
at `waited >= 20` the table is refreshed, `stuck_cycles` is incremented and —
since the guard is `stuck_cycles >= 1` — the table is immediately reopened
and all counters reset. -/
def gate_step (joinOk : Bool) (st : GateSt) (now : Nat) : List GAct × GateSt :=
  let waited := now - st.gate_start
  let acts1 : List GAct := if waited = 4 ∨ waited = 8 ∨ waited = 12 ∨ waited = 16 then [.poke] else []
  let s2 : List GAct × GateSt :=
    if 8 ≤ waited ∧ st.joined = false then ([GAct.join], { st with joined := st.joined || joinOk })
    else ([], st)
  if 20 ≤ waited then
    let stuck1 := s2.2.stuck + 1
    if 1 ≤ stuck1 then
      (acts1 ++ s2.1 ++ [.refresh, .reopen],
       { gate_start := now, joined := false, stuck := 0,
         table_idx := (s2.2.table_idx + 1) % max MAX_TABLES 1 })
    else
      (acts1 ++ s2.1 ++ [.refresh],
       { s2.2 with gate_start := now, joined := false, stuck := stuck1 })
  else (acts1 ++ s2.1, s2.2)

def gate_run (joinOk : Bool) : GateSt → List Nat → List GAct
  | _, [] => []
  | st, t :: ts =>
    let r := gate_step joinOk st t
    r.1 ++ gate_run joinOk r.2 ts

def glevel : GAct → Nat
  | .poke => 1
  | .join => 1
  | .refresh => 2
  | .reopen => 3

/-! ## Tree truncation and detach-freedom (for the C7/C8 analyses) -/

/-- Keep the tree only down to depth `k` (children at depth `k` are cut). -/
def truncate : Nat → FrameNode → FrameNode
  | 0, n => .mk n.info []
  | k + 1, n => .mk n.info (n.children.map (truncate k))

/-- No frame in the first `k` generations below `n` is detached. -/
def noDetachBelow : Nat → FrameNode → Bool
  | 0, _ => true
  | k + 1, n => n.children.all (fun c => !c.info.detached && noDetachBelow k c)

/-! ## Helper lemmas about the traversal -/

theorem nodeAt_snoc (page : FrameNode) (p : List Nat) (i : Nat) :
    nodeAt page (p ++ [i]) = (nodeAt page p).bind (fun n => n.children[i]?) := by
  induction p generalizing page with
  | nil =>
    simp [nodeAt]
    cases page.children[i]? <;> simp [nodeAt]
  | cons j p ih =>
    simp only [List.cons_append, nodeAt]
    cases page.children[j]? with
    | none => rfl
    | some c => exact ih c

theorem dropLast_ancestor (l : List α) : ∃ t, l = l.dropLast ++ t := by
  rcases List.eq_nil_or_concat l with h | ⟨L, b, h⟩
  · exact ⟨[], by simp [h]⟩
  · exact ⟨[b], by simp [h, List.concat_eq_append, List.dropLast_concat]⟩

theorem ancestor_step {cur p t : List α} {i : α} (h : cur ++ [i] = p ++ t) :
    ∃ u, cur = p.dropLast ++ u := by
  rcases List.eq_nil_or_concat t with ht | ⟨t0, a, ht⟩
  · subst ht
    simp only [List.append_nil] at h
    exact ⟨p.dropLast.drop 0 |>.take 0 |>.append [], by
      have : p = cur ++ [i] := h.symm
      subst this
      simp [List.dropLast_concat]⟩
  · subst ht
    rw [List.concat_eq_append, ← List.append_assoc] at h
    obtain ⟨h1, _⟩ := List.append_inj' h rfl
    rcases List.eq_nil_or_concat p with hp | ⟨q, b, hp⟩
    · exact ⟨cur, by simp [hp]⟩
    · subst hp
      rw [List.concat_eq_append] at h1 ⊢
      refine ⟨b :: t0, ?_⟩
      rw [List.dropLast_concat, h1, List.append_assoc]
      rfl

theorem enterFrame_ok (page : FrameNode) (ep : List Nat) (i : Nat) (cur cur1 : List Nat)
    (he : enterFrame page ep i cur = .ok cur1) : cur = ep ∧ cur1 = ep ++ [i] := by
  unfold enterFrame at he
  by_cases hc : cur = ep
  · subst hc
    rw [if_neg (fun h => h rfl)] at he
    cases hn : (nodeAt page cur).bind (fun n => n.children[i]?) with
    | none => simp [hn] at he
    | some c =>
      simp only [hn] at he
      by_cases hd : c.info.detached = true
      · simp [hd] at he
      · simp only [Bool.not_eq_true] at hd
        simp only [hd, Bool.false_eq_true, if_false, Except.ok.injEq] at he
        exact ⟨rfl, he.symm⟩
  · simp [hc] at he

theorem loopF_ne_raised (kids : List Nat) (rec : List Nat → DRes × List Nat)
    (page : FrameNode) (ep cur : List Nat) :
    (loopF rec page ep kids cur).1 ≠ DRes.raised := by
  induction kids generalizing cur with
  | nil => simp [loopF]
  | cons i rest ih =>
    simp only [loopF]
    split
    · exact ih _
    · split
      · simp
      · exact ih _
      · exact ih _

theorem loopF_prefix (kids : List Nat) (rec : List Nat → DRes × List Nat)
    (page : FrameNode) (ep : List Nat)
    (hrec : ∀ q, ∃ t, q = (rec q).2 ++ t) (cur : List Nat) :
    ∃ t, cur = (loopF rec page ep kids cur).2 ++ t := by
  induction kids generalizing cur with
  | nil => exact ⟨[], by simp [loopF]⟩
  | cons i rest ih =>
    simp only [loopF]
    split
    · rename_i he
      obtain ⟨t1, h1⟩ := dropLast_ancestor cur
      obtain ⟨t2, h2⟩ := ih cur.dropLast
      refine ⟨t2 ++ t1, ?_⟩
      rw [← List.append_assoc, ← h2, ← h1]
    · rename_i cur1 he
      have hcur := enterFrame_ok page ep i cur cur1 he
      obtain ⟨t0, h0⟩ := hrec cur1
      have hstep : ∃ u, cur = (rec cur1).2.dropLast ++ u := by
        have hx : cur ++ [i] = (rec cur1).2 ++ t0 := by
          rw [← h0, hcur.2, hcur.1]
        exact ancestor_step hx
      split
      · rename_i c hw p hr
        rw [hr] at hstep
        exact hstep
      · rename_i p hr
        rw [hr] at hstep
        obtain ⟨u, hu⟩ := hstep
        simp only at hu
        obtain ⟨t2, h2⟩ := ih p.dropLast
        refine ⟨t2 ++ u, ?_⟩
        rw [← List.append_assoc, ← h2]
        exact hu
      · rename_i p hr
        rw [hr] at hstep
        obtain ⟨u, hu⟩ := hstep
        simp only at hu
        obtain ⟨t2, h2⟩ := ih p.dropLast
        refine ⟨t2 ++ u, ?_⟩
        rw [← List.append_assoc, ← h2]
        exact hu

theorem dfsF_prefix (fuel : Nat) (page : FrameNode) (path : List Nat) :
    ∃ t, path = (dfsF page fuel path).2 ++ t := by
  induction fuel generalizing path with
  | zero =>
    simp only [dfsF]
    split
    · exact ⟨[], by simp⟩
    · exact ⟨[], by simp⟩
    · exact ⟨[], by simp⟩
  | succ f ih =>
    simp only [dfsF]
    split
    · exact ⟨[], by simp⟩
    · exact ⟨[], by simp⟩
    · split
      · exact ⟨[], by simp⟩
      · exact loopF_prefix _ _ _ _ (fun q => ih q) path

theorem loopF_balanced (kids : List Nat) (rec : List Nat → DRes × List Nat)
    (page : FrameNode) (ep : List Nat)
    (hrec : ∀ i, i ∈ kids → (rec (ep ++ [i])).2 = ep ++ [i])
    (hkids : ∀ i, i ∈ kids →
      ∃ c, (nodeAt page ep).bind (fun n => n.children[i]?) = some c ∧
        c.info.detached = false) :
    (loopF rec page ep kids ep).2 = ep := by
  induction kids with
  | nil => simp [loopF]
  | cons i rest ih =>
    obtain ⟨c, hc, hd⟩ := hkids i (List.mem_cons_self i rest)
    have he : enterFrame page ep i ep = .ok (ep ++ [i]) := by
      unfold enterFrame
      rw [if_neg (fun h => h rfl), hc]
      simp [hd]
    simp only [loopF, he]
    have hp : (rec (ep ++ [i])).2 = ep ++ [i] := hrec i (List.mem_cons_self i rest)
    rcases hr : rec (ep ++ [i]) with ⟨r, p⟩
    rw [hr] at hp
    simp only at hp
    subst hp
    cases r with
    | found cc hw => simp [List.dropLast_concat]
    | nofind =>
      simp only [List.dropLast_concat]
      exact ih (fun j hj => hrec j (List.mem_cons_of_mem i hj))
        (fun j hj => hkids j (List.mem_cons_of_mem i hj))
    | raised =>
      simp only [List.dropLast_concat]
      exact ih (fun j hj => hrec j (List.mem_cons_of_mem i hj))
        (fun j hj => hkids j (List.mem_cons_of_mem i hj))

theorem dfsF_balanced (fuel : Nat) (page : FrameNode) (path : List Nat) (n : FrameNode)
    (hnode : nodeAt page path = some n) (hdet : noDetachBelow fuel n = true) :
    (dfsF page fuel path).2 = path := by
  induction fuel generalizing path n with
  | zero =>
    simp only [dfsF]
    split <;> rfl
  | succ f ih =>
    simp only [dfsF]
    split
    · rfl
    · rfl
    · split
      · rfl
      · rename_i nc henum
        have hcount : n.children.length = nc := by
          unfold enumFramesAt at henum
          rw [hnode] at henum
          by_cases ht : n.info.enumThrows = true
          · simp [ht] at henum
          · simp only [Bool.not_eq_true] at ht
            simp only [ht, Bool.false_eq_true, if_false, Except.ok.injEq] at henum
            exact henum
        have hall : ∀ c ∈ n.children, c.info.detached = false ∧ noDetachBelow f c = true := by
          simpa [noDetachBelow, List.all_eq_true, Bool.and_eq_true,
            Bool.not_eq_true'] using hdet
        refine loopF_balanced _ _ _ _ ?_ ?_
        · intro i hi
          rw [List.mem_range, ← hcount] at hi
          have hget : n.children[i]? = some n.children[i] := List.getElem?_eq_getElem hi
          have hmem : n.children[i] ∈ n.children := List.getElem_mem hi
          have hci := hall _ hmem
          have hnode2 : nodeAt page (path ++ [i]) = some n.children[i] := by
            rw [nodeAt_snoc, hnode]
            simp [hget]
          exact ih (path ++ [i]) n.children[i] hnode2 hci.2
        · intro i hi
          rw [List.mem_range, ← hcount] at hi
          have hget : n.children[i]? = some n.children[i] := List.getElem?_eq_getElem hi
          have hmem : n.children[i] ∈ n.children := List.getElem_mem hi
          have hci := hall _ hmem
          exact ⟨n.children[i], by rw [hnode]; simp [hget], hci.1⟩

/-! ## Truncation lemmas -/

theorem truncate_info (k : Nat) (n : FrameNode) : (truncate k n).info = n.info := by
  cases k <;> cases n <;> rfl

theorem nodeAt_truncate (path : List Nat) (k : Nat) (n : FrameNode) :
    nodeAt (truncate k n) path =
      if k < path.length then none
      else (nodeAt n path).map (truncate (k - path.length)) := by
  induction path generalizing k n with
  | nil => simp [nodeAt]
  | cons i p ih =>
    cases k with
    | zero => simp [truncate, nodeAt]
    | succ k' =>
      simp only [truncate, nodeAt, FrameNode.children_mk, List.getElem?_map]
      cases hg : n.children[i]? with
      | none => simp [hg]
      | some c =>
        simp only [hg, Option.map_some']
        rw [ih k' c]
        simp [Nat.succ_lt_succ_iff, Nat.succ_sub_succ]

theorem nodeAt_truncate_le {path : List Nat} {k : Nat} (n : FrameNode)
    (h : path.length ≤ k) :
    nodeAt (truncate k n) path = (nodeAt n path).map (truncate (k - path.length)) := by
  rw [nodeAt_truncate, if_neg (by omega)]

theorem try_parse_here_trunc (k : Nat) (n : FrameNode) :
    try_parse_here (truncate k n) = try_parse_here n := by
  simp only [try_parse_here, truncate_info]

theorem try_parse_shadow_trunc (k : Nat) (n : FrameNode) :
    try_parse_shadow (truncate k n) = try_parse_shadow n := by
  simp only [try_parse_shadow, truncate_info]

theorem tryHereAt_trunc (page : FrameNode) (path : List Nat) (k : Nat)
    (h : path.length ≤ k) : tryHereAt (truncate k page) path = tryHereAt page path := by
  unfold tryHereAt
  rw [nodeAt_truncate_le page h]
  cases nodeAt page path with
  | none => rfl
  | some n => simp [try_parse_here_trunc]

theorem tryShadowAt_trunc (page : FrameNode) (path : List Nat) (k : Nat)
    (h : path.length ≤ k) : tryShadowAt (truncate k page) path = tryShadowAt page path := by
  unfold tryShadowAt
  rw [nodeAt_truncate_le page h]
  cases nodeAt page path with
  | none => rfl
  | some n => simp [try_parse_shadow_trunc]

theorem localProbe_trunc (page : FrameNode) (path : List Nat) (k : Nat)
    (h : path.length ≤ k) : localProbe (truncate k page) path = localProbe page path := by
  unfold localProbe
  rw [tryHereAt_trunc _ _ _ h, tryShadowAt_trunc _ _ _ h]

theorem enumFramesAt_trunc (page : FrameNode) (path : List Nat) (k : Nat)
    (h : path.length < k) : enumFramesAt (truncate k page) path = enumFramesAt page path := by
  unfold enumFramesAt
  rw [nodeAt_truncate_le page (le_of_lt h)]
  obtain ⟨j, hj⟩ : ∃ j, k - path.length = j + 1 := ⟨k - path.length - 1, by omega⟩
  rw [hj]
  cases nodeAt page path with
  | none => rfl
  | some n => simp [truncate]

theorem enterFrame_trunc (page : FrameNode) (ep : List Nat) (i : Nat) (cur : List Nat)
    (k : Nat) (h : ep.length < k) :
    enterFrame (truncate k page) ep i cur = enterFrame page ep i cur := by
  unfold enterFrame
  rw [nodeAt_truncate_le page (le_of_lt h)]
  obtain ⟨j, hj⟩ : ∃ j, k - ep.length = j + 1 := ⟨k - ep.length - 1, by omega⟩
  rw [hj]
  cases nodeAt page ep with
  | none => rfl
  | some n =>
    simp only [Option.map_some', truncate, FrameNode.children_mk, Option.some_bind,
      List.getElem?_map]
    cases n.children[i]? with
    | none => rfl
    | some c => simp [truncate_info]

theorem loopF_congr (kids : List Nat) (rec1 rec2 : List Nat → DRes × List Nat)
    (page1 page2 : FrameNode) (ep : List Nat)
    (hrec : ∀ i, rec1 (ep ++ [i]) = rec2 (ep ++ [i]))
    (henter : ∀ i cur, enterFrame page1 ep i cur = enterFrame page2 ep i cur)
    (cur : List Nat) :
    loopF rec1 page1 ep kids cur = loopF rec2 page2 ep kids cur := by
  induction kids generalizing cur with
  | nil => simp [loopF]
  | cons i rest ih =>
    simp only [loopF, henter i cur]
    cases he : enterFrame page2 ep i cur with
    | error e => simpa only [he] using ih cur.dropLast
    | ok cur1 =>
      have hc1 : cur1 = ep ++ [i] := (enterFrame_ok page2 ep i cur cur1 he).2
      simp only [he, hc1, hrec i]
      cases rec2 (ep ++ [i]) with
      | mk r p =>
        cases r <;> simp only [] <;> first | rfl | exact ih p.dropLast

theorem dfsF_trunc (fuel : Nat) (k : Nat) (page : FrameNode) (path : List Nat)
    (h : fuel + path.length ≤ k) :
    dfsF (truncate k page) fuel path = dfsF page fuel path := by
  induction fuel generalizing path with
  | zero =>
    simp only [dfsF]
    rw [localProbe_trunc _ _ _ (by omega)]
  | succ f ih =>
    simp only [dfsF]
    rw [localProbe_trunc _ _ _ (by omega)]
    cases localProbe page path with
    | error e => rfl
    | ok o =>
      cases o with
      | some ph => rfl
      | none =>
        rw [enumFramesAt_trunc _ _ _ (by omega)]
        cases enumFramesAt page path with
        | error e => rfl
        | ok nc =>
          exact loopF_congr _ _ _ _ _ _
            (fun i => ih (path ++ [i])
              (by simp only [List.length_append, List.length_cons, List.length_nil]; omega))
            (fun i cur => enterFrame_trunc page path i cur k (by omega)) path

/-! ## Helper lemmas: local probe, gate, dedup keys -/

theorem try_parse_here_ok (n : FrameNode) (h : n.info.hereThrows = false) :
    ∃ o, try_parse_here n = .ok o := by
  unfold try_parse_here
  simp only [h, Bool.false_eq_true, if_false]
  exact ⟨_, rfl⟩

theorem try_parse_shadow_ok (n : FrameNode) (h : n.info.shadowThrows = false) :
    ∃ o, try_parse_shadow n = .ok o := by
  unfold try_parse_shadow
  simp only [h, Bool.false_eq_true, if_false]
  exact ⟨_, rfl⟩

theorem localProbe_ok (page : FrameNode) (path : List Nat) (n : FrameNode)
    (hnode : nodeAt page path = some n)
    (h1 : n.info.hereThrows = false) (h2 : n.info.shadowThrows = false) :
    ∃ o, localProbe page path = .ok o := by
  have hh : tryHereAt page path = try_parse_here n := by
    unfold tryHereAt
    rw [hnode]
  have hs : tryShadowAt page path = try_parse_shadow n := by
    unfold tryShadowAt
    rw [hnode]
  obtain ⟨o1, ho1⟩ := try_parse_here_ok n h1
  obtain ⟨o2, ho2⟩ := try_parse_shadow_ok n h2
  unfold localProbe
  rw [hh, ho1]
  cases o1 with
  | some ph => exact ⟨some ph, rfl⟩
  | none =>
    rw [hs, ho2]
    exact ⟨o2, rfl⟩

theorem enumFramesAt_ok (page : FrameNode) (path : List Nat) (n : FrameNode)
    (hnode : nodeAt page path = some n) (h : n.info.enumThrows = false) :
    enumFramesAt page path = .ok n.children.length := by
  unfold enumFramesAt
  rw [hnode]
  simp [h]

theorem gate_step_low (jk : Bool) (st : GateSt) (now : Nat)
    (h : now - st.gate_start < 20) :
    ∀ a ∈ (gate_step jk st now).1, glevel a ≤ 1 := by
  intro a ha
  unfold gate_step at ha
  simp only at ha
  rw [if_neg (by omega)] at ha
  simp only at ha
  rcases List.mem_append.mp ha with h1 | h2
  · split at h1 <;> simp_all [glevel]
  · split at h2 <;> simp_all [glevel]

theorem gate_step_reopen (jk : Bool) (st : GateSt) (now : Nat)
    (h : GAct.reopen ∈ (gate_step jk st now).1) :
    GAct.refresh ∈ (gate_step jk st now).1 ∧ 20 ≤ now - st.gate_start ∧
      1 ≤ st.stuck + 1 := by
  by_cases h20 : 20 ≤ now - st.gate_start
  · refine ⟨?_, h20, Nat.succ_le_succ (Nat.zero_le _)⟩
    unfold gate_step
    simp only
    rw [if_pos h20, if_pos (Nat.succ_le_succ (Nat.zero_le _))]
    simp
  · exfalso
    have := gate_step_low jk st now (by omega) GAct.reopen h
    simp [glevel] at this

theorem dedup_head_ne (ks : List (Option String × Nat × String)) (last : Option String) :
    ∀ x, (dedup_run last ks).head? = some x → some x ≠ last := by
  induction ks generalizing last with
  | nil => simp [dedup_run]
  | cons k rest ih =>
    intro x hx
    unfold dedup_run at hx
    split at hx
    · rename_i hc
      simp only [List.head?_cons, Option.some.injEq] at hx
      rw [← hx]
      exact hc
    · exact ih last x hx

theorem dedup_chain (ks : List (Option String × Nat × String)) (last : Option String) :
    List.Chain' (fun a b => a ≠ b) (dedup_run last ks) := by
  induction ks generalizing last with
  | nil => simp [dedup_run]
  | cons k rest ih =>
    unfold dedup_run
    split
    · rename_i hc
      rw [List.chain'_cons']
      refine ⟨?_, ih _⟩
      intro y hy he
      exact dedup_head_ne rest _ y hy (by rw [he])
    · exact ih last

theorem sigOf_cancel {a b : String} (r : Nat) (s : String)
    (h : sigOf (some a) r s = sigOf (some b) r s) : a = b := by
  have hd := congrArg String.data h
  simp only [sigOf, pyOptStr, String.data_append] at hd
  exact String.ext (List.append_cancel_right (List.append_cancel_right
    (List.append_cancel_right (List.append_cancel_right hd))))

theorem sigOf_some_ne_none {rid : String} (h : rid ≠ "None") (r : Nat) (s : String) :
    sigOf (some rid) r s ≠ sigOf none r s := by
  intro he
  apply h
  have hd := congrArg String.data he
  simp only [sigOf, pyOptStr, String.data_append] at hd
  exact String.ext (List.append_cancel_right (List.append_cancel_right
    (List.append_cancel_right (List.append_cancel_right hd))))

theorem sigOf_r100_ne_r101 (r : Nat) (s : String) :
    sigOf (some "R100") r s ≠ sigOf (some "R101") r s := by
  intro he
  have : ("R100" : String) = "R101" := sigOf_cancel r s he
  exact absurd this (by decide)

theorem dedup_twice (rid : Option String) (r : Nat) (s : String) :
    dedup_run none [(rid, r, s), (rid, r, s)] = [sigOf rid r s] := by
  simp [dedup_run]

theorem dedup_two_rids (rid1 rid2 : Option String) (r : Nat) (s : String)
    (h : sigOf rid2 r s ≠ sigOf rid1 r s) :
    (dedup_run none [(rid1, r, s), (rid2, r, s)]).length = 2 := by
  have h1 : (some (sigOf rid1 r s) : Option String) ≠ none := by simp
  have h2 : (some (sigOf rid2 r s) : Option String) ≠ some (sigOf rid1 r s) := by
    intro he
    exact h (Option.some.inj he)
  simp only [dedup_run, if_pos h1, if_pos h2]
  rfl

/-! ## Concrete scenarios used by the claim theorems -/

def cleanInfo : FrameInfo :=
  { domUrls := [], jsHints := [], pageHtml := "", shadowUrls := [], shadowToks := [],
    hereThrows := false, shadowThrows := false, enumThrows := false, detached := false }

/-- One frame whose free page text parses while its shadow DOM also holds a
candidate URL. -/
def pageC2ex : FrameNode :=
  .mk { cleanInfo with pageHtml := "7 of spades", shadowUrls := ["/KD.png"] } []

/-- One frame with a parseable DOM URL. -/
def nodeC2w : FrameNode := .mk { cleanInfo with domUrls := ["/7D.png"] } []

/-- A root context whose evidence collection raises. -/
def pageC4ex : FrameNode := .mk { cleanInfo with hereThrows := true } []

/-- A clean root over children that throw or are detached. -/
def pageC4w : FrameNode :=
  .mk cleanInfo [.mk { cleanInfo with hereThrows := true } [],
                 .mk { cleanInfo with detached := true } []]

/-- One frame with a parseable DOM URL (used at depth bound 0). -/
def pageC7ex : FrameNode := .mk { cleanInfo with domUrls := ["/7D.png"] } []

/-- Page whose game frame (index 0) has one detached child. -/
def pageC8ex : FrameNode :=
  .mk cleanInfo [.mk cleanInfo [.mk { cleanInfo with detached := true } []]]

/-- A single clean frame. -/
def pageClean : FrameNode := .mk cleanInfo []

/-! ## Claim theorems -/

/-- C1: the compact token "/7D.png" and the doubled-letter token "/7DD.png"
parse to rank 7 of diamonds as the claim states, but the word-form token
"queen_of_spades.png" parses to NO MATCH, not to rank 12 of spades:
`PAT_WORDY` captures the word "queen", and `card_from` normalizes ranks only
through `RANK_MAP`, which has no word-rank keys, so every word-rank match is
rejected (the code slips on the very inputs `PAT_WORDY` exists for). -/
theorem claim_C1_parser_families :
    parse_from_any "/7D.png" = some ⟨7, "D"⟩ ∧
    parse_from_any "/7DD.png" = some ⟨7, "D"⟩ ∧
    parse_from_any "queen_of_spades.png" = none := by
  refine ⟨?_, ?_, ?_⟩ <;> rfl

/-- C2 (counterexample): the code consults free visible page text before the
shadow DOM: on a frame whose page text reads "7 of spades" while its shadow
DOM holds the URL "/KD.png", the resolution pass returns the free-text
candidate (7S, "via=dom-text"), whereas a resolver following the priority
order stated by the spec would return the shadow candidate (KD,
"via=shadow-url"). -/
theorem claim_C2_order_counterexample :
    resolution_pass pageC2ex [] [] = .ok (some (⟨7, "S"⟩, "via=dom-text"), none) ∧
    resolveSpecOrderC2 [] 5 pageC2ex = some (⟨13, "D"⟩, "via=shadow-url") ∧
    some ((⟨7, "S"⟩ : Card), "via=dom-text") ≠
      some ((⟨13, "D"⟩ : Card), "via=shadow-url") := by
  refine ⟨?_, ?_, by decide⟩ <;> rfl

/-- C2 (amended): within one resolution pass the evidence sources are
consulted in the fixed order current-frame DOM URLs → JS-computed hints →
free visible text → shadow DOM → child frames → network response bodies,
short-circuiting on the first successful parse; child frames are recursed
into only when the current context (including its shadow DOM) yields nothing,
and network bodies are consulted only when the whole frame tree yields
nothing. -/
theorem claim_C2_order_amended :
    (∀ (n : FrameNode) (c : Card),
        n.info.hereThrows = false →
        n.info.domUrls.findSome? parse_from_any = some c →
        try_parse_here n = .ok (some (c, "via=dom-url"))) ∧
    (∀ (n : FrameNode) (c : Card),
        n.info.hereThrows = false →
        n.info.domUrls.findSome? parse_from_any = none →
        (tokens_from_js_hints n.info.jsHints).findSome? parse_from_any = some c →
        try_parse_here n = .ok (some (c, "via=dom-js"))) ∧
    (∀ (n : FrameNode) (c : Card),
        n.info.hereThrows = false →
        n.info.domUrls.findSome? parse_from_any = none →
        (tokens_from_js_hints n.info.jsHints).findSome? parse_from_any = none →
        parse_from_text n.info.pageHtml = some c →
        try_parse_here n = .ok (some (c, "via=dom-text"))) ∧
    (∀ (n : FrameNode) (c : Card),
        n.info.shadowThrows = false →
        n.info.shadowUrls.findSome? parse_from_any = some c →
        try_parse_shadow n = .ok (some (c, "via=shadow-url"))) ∧
    (∀ (page : FrameNode) (path : List Nat) (fuel : Nat) (c : Card) (hw : String),
        tryHereAt page path = .ok (some (c, hw)) →
        dfsF page fuel path = (DRes.found c hw, path)) ∧
    (∀ (page : FrameNode) (path : List Nat) (f nc : Nat),
        localProbe page path = .ok none →
        enumFramesAt page path = .ok nc →
        dfsF page (f + 1) path =
          loopF (fun p => dfsF page f p) page path (List.range nc) path) ∧
    (∀ (page : FrameNode) (sp : List Nat) (entries : List NetEntry) (c : Card)
        (hw : String) (p : List Nat),
        dfs_frames_for_card page 5 0 sp = (DRes.found c hw, p) →
        resolution_pass page sp entries = .ok (some (c, hw), none)) ∧
    (∀ (page : FrameNode) (sp : List Nat) (entries : List NetEntry) (c : Card)
        (p : List Nat),
        dfs_frames_for_card page 5 0 sp = (DRes.nofind, p) →
        (collect_network_json_card entries).1 = some c →
        ∃ rid, resolution_pass page sp entries = .ok (some (c, "via=json"), rid)) := by
  refine ⟨?_, ?_, ?_, ?_, ?_, ?_, ?_, ?_⟩
  · intro n c h1 h2
    unfold try_parse_here
    simp [h1, h2]
  · intro n c h1 h2 h3
    unfold try_parse_here
    simp [h1, h2, h3]
  · intro n c h1 h2 h3 h4
    unfold try_parse_here
    simp [h1, h2, h3, h4]
  · intro n c h1 h2
    unfold try_parse_shadow
    simp [h1, h2]
  · intro page path fuel c hw h
    have hp : localProbe page path = .ok (some (c, hw)) := by
      unfold localProbe
      rw [h]
    cases fuel <;> simp [dfsF, hp]
  · intro page path f nc h1 h2
    simp [dfsF, h1, h2]
  · intro page sp entries c hw p h
    unfold resolution_pass
    rw [h]
  · intro page sp entries c p h1 h2
    rcases hne : collect_network_json_card entries with ⟨pj, pr⟩
    rw [hne] at h2
    simp only at h2
    subst h2
    refine ⟨(match pr with | some r => if r = "" then none else some r | none => none), ?_⟩
    unfold resolution_pass
    rw [h1]
    simp only [hne]
    cases pr <;> rfl

/-- C2 (witness): the first stage applied to a concrete frame. -/
theorem claim_C2_order_witness :
    try_parse_here nodeC2w = .ok (some (⟨7, "D"⟩, "via=dom-url")) :=
  claim_C2_order_amended.1 nodeC2w ⟨7, "D"⟩ rfl rfl

/-- C3 (counterexample): the free-text entry point `parse_from_text` applies
no closed-card denylist: on the token "card-back 7 of spades", which contains
the denylist hint "card-back" and an otherwise-valid `PAT_OFWORD` pattern, it
returns the card 7 of spades instead of no match. -/
theorem claim_C3_closed_hints_counterexample :
    hasClosedHint "card-back 7 of spades" = true ∧
    parse_from_text "card-back 7 of spades" = some ⟨7, "S"⟩ := by
  exact ⟨rfl, rfl⟩

/-- C3 (amended): the token parser `parse_from_any` rejects every token
containing a closed/back-card hint before any pattern matching, and
"1_card_20_20.webp" yields no match from both `parse_from_any` (denylist) and
`parse_from_text` (no pattern matches it); the free-text entry point,
however, applies no denylist. -/
theorem claim_C3_closed_hints_amended :
    (∀ s : String, hasClosedHint s = true → parse_from_any s = none) ∧
    parse_from_any "1_card_20_20.webp" = none ∧
    parse_from_text "1_card_20_20.webp" = none := by
  refine ⟨?_, by rfl, by rfl⟩
  intro s h
  unfold parse_from_any
  simp [h]

/-- C3 (witness): a token embedding the valid pattern "/7D.png" after a
denylist hint is rejected. -/
theorem claim_C3_closed_hints_witness :
    parse_from_any "/card-back/7D.png" = none :=
  claim_C3_closed_hints_amended.1 "/card-back/7D.png" rfl

/-- C4 (counterexample): an exception raised while collecting evidence in the
CURRENT context is not absorbed: with the root collector throwing, the
resolver itself returns `raised`, which nothing in the main loop catches, so
the exception propagates past the Candidate Resolver boundary and ends the
run. -/
theorem claim_C4_absorption_counterexample :
    (dfs_frames_for_card pageC4ex 5 0 []).1 = DRes.raised := by rfl

/-- C4 (amended): every exception arising below the current context is
absorbed — whenever the frame at the starting context itself collects without
raising (its here/shadow collectors and its frame enumeration succeed), the
resolver never returns `raised`, no matter which descendants throw, are
detached, or fail to enumerate; an exception in the starting context's own
collectors, by contrast, propagates out of the resolver. -/
theorem claim_C4_absorption_amended :
    ∀ (page : FrameNode) (md d : Nat) (path : List Nat) (n : FrameNode),
      nodeAt page path = some n →
      n.info.hereThrows = false → n.info.shadowThrows = false →
      n.info.enumThrows = false →
      (dfs_frames_for_card page md d path).1 ≠ DRes.raised := by
  intro page md d path n hnode h1 h2 h3
  unfold dfs_frames_for_card
  obtain ⟨o, ho⟩ := localProbe_ok page path n hnode h1 h2
  cases hf : md - d with
  | zero =>
    simp only [dfsF, ho]
    cases o with
    | some ph => simp
    | none => simp
  | succ f =>
    simp only [dfsF, ho]
    cases o with
    | some ph => simp
    | none =>
      rw [enumFramesAt_ok page path n hnode h3]
      exact loopF_ne_raised _ _ _ _ _

/-- C4 (witness): a clean root over a throwing child and a detached child
still yields a non-raised result. -/
theorem claim_C4_absorption_witness :
    (dfs_frames_for_card pageC4w 5 0 []).1 ≠ DRes.raised :=
  claim_C4_absorption_amended pageC4w 5 0 [] pageC4w rfl rfl rfl rfl

/-- C5: at most one RoundEvent per dedup key in sequence — the emitted key
stream never contains two equal keys adjacently; resolving the same
(roundId, rank, suit) twice in a row from the initial state appends exactly
one row, and a change of roundId from "R100" to "R101" with the same card
appends a second row. -/
theorem claim_C5_dedup :
    (∀ (last : Option String) (ks : List (Option String × Nat × String)),
        List.Chain' (fun a b => a ≠ b) (dedup_run last ks)) ∧
    (∀ (rid : Option String) (r : Nat) (s : String),
        dedup_run none [(rid, r, s), (rid, r, s)] = [sigOf rid r s]) ∧
    (∀ (r : Nat) (s : String),
        (dedup_run none [(some "R100", r, s), (some "R101", r, s)]).length = 2) := by
  refine ⟨fun last ks => dedup_chain ks last, fun rid r s => dedup_twice rid r s, ?_⟩
  intro r s
  exact dedup_two_rids _ _ r s (fun h => sigOf_r100_ne_r101 r s h.symm)

/-- C6: under stagnation sampled every second, the gate's recovery actions
climb the ladder in order — nudges (level 1) from 4s, refresh (level 2) at
20s, table re-acquisition (level 3) immediately after, never reversing; no
refresh or reopen fires before 20 seconds of stagnation, and reopen happens
exactly when the stuck-cycle count reaches the hard-coded cap of 1. -/
theorem claim_C6_escalation :
    gate_run true ⟨0, false, 0, 0⟩ (List.range 21) =
      [.poke, .poke, .join, .poke, .poke, .refresh, .reopen] ∧
    (gate_run true ⟨0, false, 0, 0⟩ (List.range 21)).map glevel =
      [1, 1, 1, 1, 1, 2, 3] ∧
    List.Chain' (fun a b => a ≤ b)
      ((gate_run true ⟨0, false, 0, 0⟩ (List.range 21)).map glevel) ∧
    (∀ (jk : Bool) (st : GateSt) (now : Nat), now - st.gate_start < 20 →
        ∀ a ∈ (gate_step jk st now).1, glevel a ≤ 1) ∧
    (∀ (jk : Bool) (st : GateSt) (now : Nat),
        GAct.reopen ∈ (gate_step jk st now).1 →
        GAct.refresh ∈ (gate_step jk st now).1 ∧ 20 ≤ now - st.gate_start ∧
          1 ≤ st.stuck + 1) := by
  have h2 : (gate_run true ⟨0, false, 0, 0⟩ (List.range 21)).map glevel =
      [1, 1, 1, 1, 1, 2, 3] := by decide
  refine ⟨by decide, h2, ?_, ?_, ?_⟩
  · rw [h2]
    simp [List.chain'_cons]
  · exact fun jk st now h => gate_step_low jk st now h
  · exact fun jk st now h => gate_step_reopen jk st now h

/-- C6 (witness): at 20 seconds of stagnation the reopen is accompanied by
the refresh and the stuck-cycle count has reached the cap. -/
theorem claim_C6_escalation_witness :
    GAct.refresh ∈ (gate_step true ⟨0, false, 0, 0⟩ 20).1 ∧
      20 ≤ 20 - (GateSt.mk 0 false 0 0).gate_start ∧
      1 ≤ (GateSt.mk 0 false 0 0).stuck + 1 :=
  claim_C6_escalation.2.2.2.2 true ⟨0, false, 0, 0⟩ 20 (by decide)

/-- C7 (counterexample): at depth bound 0 the resolver does NOT return "no
match" when the current context holds evidence — it still probes the current
frame and returns the parsed candidate. -/
theorem claim_C7_bounded_counterexample :
    dfs_frames_for_card pageC7ex 0 0 [] = (DRes.found ⟨7, "D"⟩ "via=dom-url", []) ∧
    (dfs_frames_for_card pageC7ex 0 0 []).1 ≠ DRes.nofind := by
  exact ⟨rfl, by decide⟩

/-- C7 (amended): frame recursion is bounded — the result of a resolver pass
never depends on frames deeper than maxDepth (truncating the tree there
changes nothing), and once the depth bound is reached the resolver performs
no descent and returns "no match" without erroring whenever the current
context itself yields nothing (it may still return a candidate parsed at the
bound). -/
theorem claim_C7_bounded_amended :
    (∀ (page : FrameNode) (md : Nat),
        dfs_frames_for_card page md 0 [] =
          dfs_frames_for_card (truncate md page) md 0 []) ∧
    (∀ (page : FrameNode) (md d : Nat) (path : List Nat),
        md ≤ d → localProbe page path = .ok none →
        dfs_frames_for_card page md d path = (DRes.nofind, path)) := by
  constructor
  · intro page md
    unfold dfs_frames_for_card
    exact (dfsF_trunc (md - 0) md page [] (by simp)).symm
  · intro page md d path h hp
    unfold dfs_frames_for_card
    rw [Nat.sub_eq_zero_of_le h]
    simp [dfsF, hp]

/-- C7 (witness): at the bound with an evidence-free context the resolver
returns "no match". -/
theorem claim_C7_bounded_witness :
    dfs_frames_for_card pageClean 0 0 [] = (DRes.nofind, []) :=
  claim_C7_bounded_amended.2 pageClean 0 0 [] (by decide) rfl

/-- C8 (counterexample): a frame detached between enumeration and entry does
NOT leave the browsing context restored: starting inside the game frame
(context [0]) over a detached child, the `except` recovery pops one level
even though the descent never happened, and the resolver returns with the
context at the top ([]) instead of [0]. -/
theorem claim_C8_restore_counterexample :
    dfs_frames_for_card pageC8ex 5 0 [0] = (DRes.nofind, []) ∧
    ([] : List Nat) ≠ [0] := by
  exact ⟨rfl, by decide⟩

/-- C8 (amended): when no reachable frame is detached, every traversal
restores the starting browsing context on every exit path, even when
descendant collectors throw; and in all cases — including detach-at-entry
failures — the resolver returns with the context at the starting context or
one of its ancestors, never at a descendant or invalid frame (though a
detached entry leaves it strictly above the starting context). -/
theorem claim_C8_restore_amended :
    (∀ (page : FrameNode) (md d : Nat) (path : List Nat) (n : FrameNode),
        nodeAt page path = some n → noDetachBelow (md - d) n = true →
        (dfs_frames_for_card page md d path).2 = path) ∧
    (∀ (page : FrameNode) (md d : Nat) (path : List Nat),
        ∃ t, path = (dfs_frames_for_card page md d path).2 ++ t) := by
  constructor
  · intro page md d path n hnode hdet
    exact dfsF_balanced (md - d) page path n hnode hdet
  · intro page md d path
    exact dfsF_prefix (md - d) page path

/-- C8 (witness): a clean page restores the context exactly. -/
theorem claim_C8_restore_witness :
    (dfs_frames_for_card pageClean 5 0 []).2 = [] :=
  claim_C8_restore_amended.1 pageClean 5 0 [] pageClean rfl rfl

/-- C9: for every rank 1..13 the derived category is below7 iff rank < 7,
seven iff rank = 7, above7 iff rank > 7; and for each canonical suit code the
derived color is red iff the suit is H or D, black otherwise. -/
theorem claim_C9_category_color :
    (∀ r : Nat, 1 ≤ r → r ≤ 13 →
        ((result_of r = "below7" ↔ r < 7) ∧ (result_of r = "seven" ↔ r = 7) ∧
         (result_of r = "above7" ↔ 7 < r))) ∧
    (∀ s ∈ (["S", "H", "D", "C"] : List String),
        ((color_of s = "red" ↔ (s = "H" ∨ s = "D")) ∧
         (color_of s = "black" ↔ ¬(s = "H" ∨ s = "D")))) := by
  constructor
  · intro r h1 h2
    interval_cases r <;> refine ⟨by decide, by decide, by decide⟩
  · intro s hs
    fin_cases hs <;> exact ⟨by decide, by decide⟩

/-- C9 (witness): the derivations at rank 7 and suit H. -/
theorem claim_C9_category_color_witness :
    ((result_of 7 = "below7" ↔ 7 < 7) ∧ (result_of 7 = "seven" ↔ 7 = 7) ∧
      (result_of 7 = "above7" ↔ 7 < 7)) ∧
    ((color_of "H" = "red" ↔ ("H" = "H" ∨ "H" = "D")) ∧
      (color_of "H" = "black" ↔ ¬("H" = "H" ∨ "H" = "D"))) :=
  ⟨claim_C9_category_color.1 7 (by decide) (by decide),
   claim_C9_category_color.2 "H" (by decide)⟩

/-- C10 (counterexample): a transition from the non-null roundId "None" to a
failed roundId read with identical rank and suit does NOT emit a second row:
Python renders the absent marker as the string "None", so the two dedup keys
coincide and the second resolution is suppressed. -/
theorem claim_C10_null_roundid_counterexample :
    (dedup_run none [(some "None", 7, "D"), (none, 7, "D")]).length = 1 := by
  rfl

/-- C10 (amended): with roundId unreadable the dedup key degenerates to the
absent marker "None" plus rank and suit — two consecutive null-roundId
resolutions of the same card emit exactly one row; and a transition from a
non-null roundId to a failed read with identical rank and suit emits a second
row provided the non-null roundId is not itself the literal string "None"
(whose rendering collides with the absent marker). -/
theorem claim_C10_null_roundid_amended :
    (∀ (r : Nat) (s : String),
        dedup_run none [(none, r, s), (none, r, s)] = [sigOf none r s]) ∧
    (∀ (rid : String) (r : Nat) (s : String), rid ≠ "None" →
        (dedup_run none [(some rid, r, s), (none, r, s)]).length = 2) := by
  constructor
  · intro r s
    exact dedup_twice none r s
  · intro rid r s h
    exact dedup_two_rids _ _ r s (fun he => sigOf_some_ne_none h r s he.symm)

/-- C10 (witness): roundId "R100" followed by a failed read emits two rows. -/
theorem claim_C10_null_roundid_witness :
    (dedup_run none [(some "R100", 7, "D"), (none, 7, "D")]).length = 2 :=
  claim_C10_null_roundid_amended.2 "R100" 7 "D" (by decide)

end Lucky7
